import Mathlib

/-!
Shallow embedding of the TWAP execution algorithm (src/src/algos/twap/twap.cc)
from the opentrade repository.  Doubles are modelled as rationals; the
tick-rounding function `RoundPrice`, the real power function used by
`pow(ratio, tilt_)`, the exponential used by `exp(-tilt_)`, and the uniform
random draw are abstracted as explicit function/value parameters, so every
definition stays executable on concrete instantiations.
-/

namespace TWAPModel

/-- Order side (`st_.side`, tested with `IsBuy`). -/
inductive Side where
  | buy
  | sell
deriving DecidableEq, Repr

/-- `IsBuy(side)` from the platform helpers. -/
def isBuy : Side → Bool
  | .buy => true
  | .sell => false

/-- Aggression enum `kAggLow .. kAggHighest`. -/
inductive Agg where
  | low
  | medium
  | high
  | highest
deriving DecidableEq, Repr

/-- Order type on a `Contract`: limit (default) or `kMarket`. -/
inductive OrderType where
  | limit
  | market
deriving DecidableEq, Repr

/-- Position effect of the parent request (`st_.position_effect`);
`openPosition` is `kOpenPosition`. -/
inductive PositionEffect where
  | openPosition
  | closePosition
deriving DecidableEq, Repr

/-- Exchange country; `cn` is `kCN`, everything else collapsed to `other`. -/
inductive Country where
  | cn
  | other
deriving DecidableEq, Repr

/-- Security type; `stock` is `kStock`, everything else collapsed to `other`. -/
inductive SecType where
  | stock
  | other
deriving DecidableEq, Repr

/-- The mutable configuration fields of the algorithm instance that
`TWAP::Modify` updates: `price_`, `min_size_`, `max_floor_`, `max_pov_`,
`agg_`, `random_`, `tilt_`. -/
structure Config where
  price : ℚ
  minSize : ℚ
  maxFloor : ℚ
  maxPov : ℚ
  agg : Agg
  randomize : ℚ
  tilt : ℚ
deriving DecidableEq, Repr

/-- Modelled from the spec: the initial values of the configuration fields
before `OnStart` runs (the member initializers live in the header `twap.h`,
which is not under src/).  The spec gives "limit price (0 = unset)" and a
linear schedule when tilt = 1; Low is the bottom of the aggression ladder. -/
def initConfig : Config :=
  { price := 0, minSize := 0, maxFloor := 0, maxPov := 0,
    agg := Agg.low, randomize := 0, tilt := 1 }

/-- A parameter map restricted to the keys `TWAP::Modify` reads; `none`
means the key is absent (`GetParam` then keeps the previous member value
and reports `has_value = false`). -/
structure ModifyParams where
  price : Option ℚ
  minSize : Option ℚ
  maxFloor : Option ℚ
  maxPov : Option ℚ
  aggression : Option String
  randomize : Option ℚ
  tilt : Option ℚ
deriving DecidableEq, Repr

/-- The all-absent parameter map. -/
def emptyParams : ModifyParams :=
  { price := none, minSize := none, maxFloor := none, maxPov := none,
    aggression := none, randomize := none, tilt := none }

/-- The error message of `TWAP::Modify` for an unrecognized aggression
token. -/
def invalidAggressionMsg : String :=
  "Invalid aggression, must be in (Low, Medium, High, Highest)"

/-- Parse the aggression token exactly as the `if`/`else if` chain in
`TWAP::Modify` does. -/
def parseAgg (s : String) : Option Agg :=
  if s = "Low" then some Agg.low
  else if s = "Medium" then some Agg.medium
  else if s = "High" then some Agg.high
  else if s = "Highest" then some Agg.highest
  else none

/-- The `Price` update of `TWAP::Modify`: round to tick when positive. -/
def priceUpdate (roundPrice : ℚ → ℚ) (prev : ℚ) : Option ℚ → ℚ
  | some v => if v > 0 then roundPrice v else v
  | none => prev

/-- The `MinSize` update of `TWAP::Modify`: round to the nearest lot
multiple when both the value and the lot size are positive. -/
def minSizeUpdate (lotSize prev : ℚ) : Option ℚ → ℚ
  | some v =>
      if v > 0 ∧ lotSize > 0 then (round (v / lotSize) : ℤ) * lotSize else v
  | none => prev

/-- The `MaxFloor` update of `TWAP::Modify`: floor to a lot multiple when
positive, then reset to 0 when below a positive `minSize` (the `minSize`
already updated by the same call). -/
def maxFloorUpdate (lotSize minSize prev : ℚ) : Option ℚ → ℚ
  | some v =>
      let v := if v > 0 ∧ lotSize > 0 then (⌊v / lotSize⌋ : ℤ) * lotSize else v
      if minSize > 0 ∧ v < minSize then 0 else v
  | none => prev

/-- `TWAP::Modify(params)`.  Because the C++ function mutates the member
fields in place, a failed call (invalid aggression token) still keeps the
updates made before the failing check; the model therefore returns the
post-call state together with an optional error message.  `expFn` stands
for `exp`, `roundPrice` for `RoundPrice`, `lotSize` for
`inst_->sec().lot_size`. -/
def Modify (expFn : ℚ → ℚ) (roundPrice : ℚ → ℚ) (lotSize : ℚ)
    (cfg : Config) (p : ModifyParams) : Config × Option String :=
  let price := priceUpdate roundPrice cfg.price p.price
  let minSize := minSizeUpdate lotSize cfg.minSize p.minSize
  let maxFloor := maxFloorUpdate lotSize minSize cfg.maxFloor p.maxFloor
  let maxPov := p.maxPov.getD cfg.maxPov
  let maxPov := if maxPov > 1 then 1 else maxPov
  let cfg1 : Config :=
    { price := price, minSize := minSize, maxFloor := maxFloor,
      maxPov := maxPov, agg := cfg.agg, randomize := cfg.randomize,
      tilt := cfg.tilt }
  match p.aggression with
  | some s =>
      match parseAgg s with
      | none => (cfg1, some invalidAggressionMsg)
      | some a =>
          let randomize := p.randomize.getD cfg.randomize
          let tilt :=
            match p.tilt with
            | some v => expFn (-v) / 5
            | none => cfg.tilt
          ({ cfg1 with agg := a, randomize := randomize, tilt := tilt }, none)
  | none =>
      let randomize := p.randomize.getD cfg.randomize
      let tilt :=
        match p.tilt with
        | some v => expFn (-v) / 5
        | none => cfg.tilt
      ({ cfg1 with randomize := randomize, tilt := tilt }, none)

/-- The configuration-relevant effect of `TWAP::OnStart`: validate the
window length (`ValidSeconds >= 60`), delegate to `Modify`, then require a
min size when the security has no lot size.  Start-only concerns that do
not touch the configuration (subscription, internal cross, first timer
tick) are omitted. -/
def OnStart (expFn : ℚ → ℚ) (roundPrice : ℚ → ℚ) (lotSize : ℚ)
    (validSeconds : ℚ) (p : ModifyParams) : Config × Option String :=
  if validSeconds < 60 then
    (initConfig, some "Too short ValidSeconds, must be >= 60")
  else
    match Modify expFn roundPrice lotSize initConfig p with
    | (cfg, some e) => (cfg, some e)
    | (cfg, none) =>
        if cfg.minSize ≤ 0 ∧ lotSize ≤ 0 then
          (cfg, some "MinSize required for security without lot size")
        else (cfg, none)

/-- Configurations of a running instance reachable through a successful
`OnStart` followed by any sequence of successful `Modify` calls, for a
fixed security (fixed `lotSize`) and fixed math primitives. -/
inductive Reachable (expFn : ℚ → ℚ) (roundPrice : ℚ → ℚ) (lotSize : ℚ) :
    Config → Prop where
  | start (validSeconds : ℚ) (p : ModifyParams) (cfg : Config)
      (h : OnStart expFn roundPrice lotSize validSeconds p = (cfg, none)) :
      Reachable expFn roundPrice lotSize cfg
  | step (cfg cfg' : Config) (p : ModifyParams)
      (hr : Reachable expFn roundPrice lotSize cfg)
      (h : Modify expFn roundPrice lotSize cfg p = (cfg', none)) :
      Reachable expFn roundPrice lotSize cfg'

/-- `not_lower_than_last_px_`, set once in `TWAP::OnStart`: the CN-stock
rule forbidding a sell that opens a position from being priced below the
last trade price. -/
def notLowerThanLastPx (posEffect : PositionEffect) (side : Side)
    (country : Country) (secType : SecType) : Bool :=
  posEffect = PositionEffect.openPosition ∧ ¬ isBuy side = true ∧
    country = Country.cn ∧ secType = SecType.stock

/-- Written from the spec's words, for comparison with
`notLowerThanLastPx`: "a venue/side-specific rule disallowing markdown
below last trade for sell orders opening no new position on qualifying
venues for qualifying instrument types". -/
def notLowerThanLastPxSpec (posEffect : PositionEffect) (side : Side)
    (country : Country) (secType : SecType) : Bool :=
  ¬ posEffect = PositionEffect.openPosition ∧ side = Side.sell ∧
    country = Country.cn ∧ secType = SecType.stock

/-- `TWAP::GetLeaves()`.  `rpow` stands for C's `pow`, `draw` for the value
of `kRandom(kRandomGen)` (a fresh uniform draw on (-0.01, 0.01) per
invocation), `totalExposure` for `inst_->total_exposure()`. -/
def GetLeaves (rpow : ℚ → ℚ → ℚ) (draw : ℚ) (now startTime endTime : ℚ)
    (tilt randomize qty totalExposure : ℚ) : ℚ :=
  let r := (now - startTime + 1) / ((endTime - startTime) + 1)
  let r := if tilt ≠ 1 then rpow r tilt else r
  let r := if randomize ≠ 0 then r + randomize * draw else r
  let expect := qty * r
  expect - totalExposure

/-- Modelled from the spec: `Instrument::total_exposure()` lives outside
src/; the spec defines "totalExposure = filled + currently-working child
quantity". -/
def totalExposureOf (filled working : ℚ) : ℚ := filled + working

/-- Written from the spec's words, for comparison with `GetLeaves`:
`ExpectedQty(now)` of §4.2. -/
def ExpectedQtySpec (rpow : ℚ → ℚ → ℚ) (draw : ℚ)
    (now startTime endTime tilt randomize requestedQty : ℚ) : ℚ :=
  let r := (now - startTime + 1) / (endTime - startTime + 1)
  let r := if tilt ≠ 1 then rpow r tilt else r
  let r := if randomize ≠ 0 then r + randomize * draw else r
  requestedQty * r

/-- Written from the spec's words: `Leaves(now) = ExpectedQty(now) -
totalExposure`. -/
def LeavesSpec (rpow : ℚ → ℚ → ℚ) (draw : ℚ)
    (now startTime endTime tilt randomize requestedQty totalExposure : ℚ) : ℚ :=
  ExpectedQtySpec rpow draw now startTime endTime tilt randomize requestedQty -
    totalExposure

/-- A child-order contract as the Timer builds it: `Contract c;` starts as
a limit order with price 0, quantity 0. -/
structure Contract where
  price : ℚ
  qty : ℚ
  type : OrderType
deriving DecidableEq, Repr

/-- The freshly constructed `Contract c` of `TWAP::Timer`. -/
def Contract.init : Contract := { price := 0, qty := 0, type := OrderType.limit }

/-- The `kAggHighest`/default case of the switch: a market order. -/
def highestChoice : Contract := { Contract.init with type := OrderType.market }

/-- The `kAggHigh` case: buy takes the ask, sell takes the bid, falling
through to `highestChoice` when the preferred side is unavailable. -/
def highChoice (side : Side) (bid ask : ℚ) : Contract :=
  if isBuy side then
    if ask > 0 then { Contract.init with price := ask } else highestChoice
  else
    if bid > 0 then { Contract.init with price := bid } else highestChoice

/-- The aggression switch of `TWAP::Timer` (lines 165-204): `none` models
the early `return` (abstain); fallthrough Medium → High → Highest is
explicit. -/
def aggChoice (agg : Agg) (side : Side) (bid ask lastPx midPx : ℚ) :
    Option Contract :=
  match agg with
  | Agg.low =>
      if isBuy side then
        if bid > 0 then some { Contract.init with price := bid }
        else if lastPx > 0 then some { Contract.init with price := lastPx }
        else none
      else
        if ask > 0 then some { Contract.init with price := ask }
        else if lastPx > 0 then some { Contract.init with price := lastPx }
        else none
  | Agg.medium =>
      if midPx > 0 then some { Contract.init with price := midPx }
      else some (highChoice side bid ask)
  | Agg.high => some (highChoice side bid ask)
  | Agg.highest => some highestChoice

/-- The limit-price clamp (lines 205-209): applied only to non-market
contracts when a limit `price_ > 0` is configured. -/
def applyLimitClamp (limitPrice : ℚ) (side : Side) (c : Contract) : Contract :=
  if c.type ≠ OrderType.market ∧ limitPrice > 0 ∧
      ((isBuy side ∧ c.price > limitPrice) ∨
       (¬ isBuy side ∧ c.price < limitPrice)) then
    { c with price := limitPrice }
  else c

/-- The no-markdown adjustment (line 210): raise the price to the rounded
last price when the CN rule is active. -/
def applyNotLower (notLower : Bool) (lastPx : ℚ) (c : Contract) : Contract :=
  if notLower ∧ c.price < lastPx then { c with price := lastPx } else c

/-- The whole price-computation pipeline of a tick: aggression switch,
then limit clamp, then no-markdown rule; `none` is the abstaining early
return. -/
def computeContract (roundPrice : ℚ → ℚ) (agg : Agg) (limitPrice : ℚ)
    (side : Side) (notLower : Bool) (bid ask close : ℚ) : Option Contract :=
  let lastPx := roundPrice close
  let midPx := if ask > bid ∧ bid > 0 then roundPrice ((ask + bid) / 2) else 0
  (aggChoice agg side bid ask lastPx midPx).map fun c =>
    applyNotLower notLower lastPx (applyLimitClamp limitPrice side c)

/-- The quantity computation of `TWAP::Timer` (lines 230-240), reached
with `leaves > 0`: `none` models the `max_qty <= 0` early return, `some q`
the child-order quantity eventually placed. -/
def throttleQty (oddLotAllowed : Bool) (lotSize0 minSize maxFloor
    leaves totalLeaves : ℚ) : Option ℚ :=
  let oddOk := oddLotAllowed ∨ lotSize0 ≤ 0
  let lotSize := if lotSize0 ≤ 0 then max 1 minSize else lotSize0
  let maxQty :=
    if oddOk then totalLeaves else (⌊totalLeaves / lotSize⌋ : ℤ) * lotSize
  if maxQty ≤ 0 then none
  else
    let wouldQty := (⌈leaves / lotSize⌉ : ℤ) * lotSize
    let wouldQty := if wouldQty < minSize then minSize else wouldQty
    let wouldQty :=
      if maxFloor > 0 ∧ wouldQty > maxFloor then maxFloor else wouldQty
    let wouldQty := if wouldQty > maxQty then maxQty else wouldQty
    some wouldQty

/-- Written from the spec's words (§4.3 steps 2-4), for comparison with
`throttleQty`: odd-lot handling, `maxQty`, then `wouldQty` raised to
`minSize`, capped to a nonzero `maxFloor`, capped to `maxQty`, in that
order. -/
def throttleQtySpec (exchangeAllowsOddLots : Bool) (lotL minSize maxFloor
    leaves totalLeaves : ℚ) : Option ℚ :=
  let oddLotsAllowed := exchangeAllowsOddLots ∨ lotL ≤ 0
  let roundingLot := if lotL ≤ 0 then max 1 minSize else lotL
  let maxQty :=
    if oddLotsAllowed then totalLeaves
    else (⌊totalLeaves / roundingLot⌋ : ℤ) * roundingLot
  if maxQty ≤ 0 then none
  else
    let raw := (⌈leaves / roundingLot⌉ : ℤ) * roundingLot
    let raised := if raw < minSize then minSize else raw
    let floored :=
      if maxFloor > 0 ∧ raised > maxFloor then maxFloor else raised
    let capped := if floored > maxQty then maxQty else floored
    some capped

/-- An order intent emitted by one Timer tick: `stop` is the `Stop()` call
when the window elapsed, `cancel p` cancels the active order resting at
price `p`, `place c` is `Place(&c)`. -/
inductive Action where
  | stop
  | cancel (restingPrice : ℚ)
  | place (c : Contract)
deriving DecidableEq, Repr

/-- All the data one `TWAP::Timer` tick reads: configuration, immutable
request fields, security/exchange facts, execution state, market snapshot
and clock. -/
structure TickIn where
  cfg : Config
  side : Side
  qty : ℚ
  notLower : Bool
  lotSize : ℚ
  oddLotAllowed : Bool
  inTradePeriod : Bool
  activeOrders : List ℚ
  cumQty : ℚ
  cumCxQty : ℚ
  totalExposure : ℚ
  bid : ℚ
  ask : ℚ
  close : ℚ
  volume : ℚ
  initialVolume : ℚ
  now : ℚ
  startTime : ℚ
  endTime : ℚ
deriving Repr

/-- One full invocation of `TWAP::Timer` (lines 148-246), as the list of
order intents it issues.  Active orders are identified by their resting
price (`ord->price`).  The timer re-arm (`SetTimeout`) is not an order
intent and is omitted. -/
def timerTick (roundPrice : ℚ → ℚ) (rpow : ℚ → ℚ → ℚ) (draw : ℚ)
    (t : TickIn) : List Action :=
  if t.now > t.endTime then [Action.stop]
  else if ¬ t.inTradePeriod then []
  else
    match computeContract roundPrice t.cfg.agg t.cfg.price t.side t.notLower
        t.bid t.ask t.close with
    | none => []
    | some c =>
        if t.activeOrders ≠ [] then
          t.activeOrders.filterMap fun p =>
            if c.price ≤ 0 ∨ c.price = p then none
            else if isBuy t.side then
              if p < t.bid then some (Action.cancel p) else none
            else
              if t.ask > 0 ∧ p > t.ask then some (Action.cancel p) else none
        else
          let volume := t.volume - t.initialVolume
          if volume > 0 ∧ t.cfg.maxPov > 0 ∧
              t.cumQty - t.cumCxQty > t.cfg.maxPov * volume then []
          else
            let leaves := GetLeaves rpow draw t.now t.startTime t.endTime
              t.cfg.tilt t.cfg.randomize t.qty t.totalExposure
            if leaves ≤ 0 then []
            else
              let totalLeaves := t.qty - t.totalExposure
              match throttleQty t.oddLotAllowed t.lotSize t.cfg.minSize
                  t.cfg.maxFloor leaves totalLeaves with
              | none => []
              | some q => [Action.place { c with qty := q }]

/-! ## Concrete inputs used by counterexamples and witnesses -/

/-- A tick at Medium aggression with bid = ask = 0 and last price 0. -/
def c1In : TickIn :=
  { cfg := { initConfig with agg := Agg.medium, minSize := 1 },
    side := Side.buy, qty := 100, notLower := false, lotSize := 0,
    oddLotAllowed := false, inTradePeriod := true, activeOrders := [],
    cumQty := 0, cumCxQty := 0, totalExposure := 0, bid := 0, ask := 0,
    close := 0, volume := 0, initialVolume := 0, now := 0, startTime := 0,
    endTime := 99 }

/-- A prior configuration with limit price 5. -/
def c2Cfg : Config := { initConfig with price := 5 }

/-- A modify request carrying a new price and an invalid aggression token. -/
def c2Params : ModifyParams :=
  { emptyParams with price := some 7, aggression := some "Bogus" }

/-- Start parameters: MinSize 10 and MaxFloor 20 on a security without lot
size. -/
def c3P1 : ModifyParams :=
  { emptyParams with minSize := some 10, maxFloor := some 20 }

/-- The configuration after starting with `c3P1`. -/
def c3Mid : Config := { initConfig with minSize := 10, maxFloor := 20 }

/-- A later modify that raises MinSize to 50 without supplying MaxFloor. -/
def c3P2 : ModifyParams := { emptyParams with minSize := some 50 }

/-- The configuration after `c3P2`: minSize 50 but maxFloor still 20. -/
def c3Cfg : Config := { initConfig with minSize := 50, maxFloor := 20 }

/-- A tick reaching the quantity computation: Medium aggression falling
through to a market order, lot size 10, odd lots disallowed, leaves 10. -/
def c6In : TickIn :=
  { cfg := { initConfig with agg := Agg.medium },
    side := Side.buy, qty := 100, notLower := false, lotSize := 10,
    oddLotAllowed := false, inTradePeriod := true, activeOrders := [],
    cumQty := 0, cumCxQty := 0, totalExposure := 0, bid := 0, ask := 0,
    close := 0, volume := 0, initialVolume := 0, now := 0, startTime := 0,
    endTime := 9 }

/-- A tick hitting the participation gate: MaxPov 0.1, traded volume 500
since start, 60 already filled net of cancels (the spec's own example). -/
def c7In : TickIn :=
  { cfg := { initConfig with minSize := 1, maxPov := 1 / 10 },
    side := Side.buy, qty := 1000, notLower := false, lotSize := 0,
    oddLotAllowed := false, inTradePeriod := true, activeOrders := [],
    cumQty := 60, cumCxQty := 0, totalExposure := 60, bid := 10, ask := 11,
    close := 10, volume := 500, initialVolume := 0, now := 0, startTime := 0,
    endTime := 99 }

/-- A tick with one order resting at 9 while the bid is 10 (buy side). -/
def c9In : TickIn :=
  { cfg := { initConfig with minSize := 1 },
    side := Side.buy, qty := 100, notLower := false, lotSize := 0,
    oddLotAllowed := false, inTradePeriod := true, activeOrders := [9],
    cumQty := 0, cumCxQty := 0, totalExposure := 9, bid := 10, ask := 11,
    close := 10, volume := 0, initialVolume := 0, now := 0, startTime := 0,
    endTime := 99 }

/-! ## C1 -/

/-- C1, counterexample: with bid = ask = 0 and rounded last price 0, a tick
at Medium aggression does not abstain — it falls through Medium → High →
Highest and places a market order. -/
theorem C1_counterexample :
    timerTick id (fun a _ => a) 0 c1In =
      [Action.place { price := 0, qty := 1, type := OrderType.market }] := by
  norm_num [timerTick, c1In, initConfig, computeContract, aggChoice, highChoice,
    highestChoice, Contract.init, applyLimitClamp, applyNotLower, GetLeaves,
    throttleQty, isBuy, Int.ceil_one, Int.floor_ofNat, Int.ceil_ofNat]

/-- C1 (amended): when best bid = 0, best ask = 0 and rounded last price =
0 (hence midpoint 0), the Low level abstains for either side, while
Medium and High fall through to Highest, so Medium, High and Highest all
yield the market-order contract. -/
theorem C1_amended (side : Side) :
    aggChoice Agg.low side 0 0 0 0 = none ∧
    aggChoice Agg.medium side 0 0 0 0 = some highestChoice ∧
    aggChoice Agg.high side 0 0 0 0 = some highestChoice ∧
    aggChoice Agg.highest side 0 0 0 0 = some highestChoice := by
  cases side <;> decide

/-! ## C2 -/

/-- C2, counterexample: a Modify call carrying both a new price and an
unrecognized aggression token fails with the descriptive message, yet the
limit price has already been changed from 5 to 7 — the prior configuration
is not left entirely unchanged. -/
theorem C2_counterexample :
    (Modify id id 1 c2Cfg c2Params).2 = some invalidAggressionMsg ∧
    (Modify id id 1 c2Cfg c2Params).1.price ≠ c2Cfg.price := by
  decide

/-- C2 (amended): a failed Modify call (the only failure is the
unrecognized aggression token, reported with a descriptive message) leaves
aggression, randomize and tilt unchanged, but price, min size, max floor
and max participation updates supplied in the same call have already been
applied when the error is returned. -/
theorem C2_amended (expFn roundPrice : ℚ → ℚ) (lotSize : ℚ) (cfg : Config)
    (p : ModifyParams) (cfg' : Config) (msg : String)
    (h : Modify expFn roundPrice lotSize cfg p = (cfg', some msg)) :
    msg = invalidAggressionMsg ∧ cfg'.agg = cfg.agg ∧
    cfg'.randomize = cfg.randomize ∧ cfg'.tilt = cfg.tilt := by
  unfold Modify at h
  rcases hA : p.aggression with _ | s
  · simp only [hA, Prod.mk.injEq] at h
    exact absurd h.2 (by simp)
  · simp only [hA] at h
    rcases hP : parseAgg s with _ | a
    · simp only [hP, Prod.mk.injEq] at h
      obtain ⟨h1, h2⟩ := h
      injection h2 with h2
      subst h1
      exact ⟨h2.symm, rfl, rfl, rfl⟩
    · simp only [hP, Prod.mk.injEq] at h
      exact absurd h.2 (by simp)

/-- C2, witness for the amended theorem at the concrete failing call. -/
theorem C2_amended_witness :
    (Modify id id 1 c2Cfg c2Params).2 = some invalidAggressionMsg ∧
    (Modify id id 1 c2Cfg c2Params).1.agg = c2Cfg.agg ∧
    (Modify id id 1 c2Cfg c2Params).1.randomize = c2Cfg.randomize ∧
    (Modify id id 1 c2Cfg c2Params).1.tilt = c2Cfg.tilt := by
  have h := C2_amended id id 1 c2Cfg c2Params
    (Modify id id 1 c2Cfg c2Params).1 invalidAggressionMsg (by decide)
  exact ⟨by decide, h.2.1, h.2.2.1, h.2.2.2⟩

/-! ## C3 -/

/-- Helper: the `minSize` and `maxFloor` fields of the state returned by
`Modify`, whether the call succeeds or fails. -/
theorem Modify_fields (expFn roundPrice : ℚ → ℚ) (lotSize : ℚ)
    (cfg : Config) (p : ModifyParams) :
    (Modify expFn roundPrice lotSize cfg p).1.minSize =
      minSizeUpdate lotSize cfg.minSize p.minSize ∧
    (Modify expFn roundPrice lotSize cfg p).1.maxFloor =
      maxFloorUpdate lotSize (minSizeUpdate lotSize cfg.minSize p.minSize)
        cfg.maxFloor p.maxFloor := by
  unfold Modify
  rcases hA : p.aggression with _ | s <;> simp only [hA]
  · constructor <;> trivial
  · rcases hP : parseAgg s with _ | a <;> simp only [hP] <;>
      constructor <;> trivial

/-- C3, counterexample: starting with MinSize 10, MaxFloor 20 and then
successfully modifying MinSize to 50 (without supplying MaxFloor) reaches
a running configuration with minSize > 0, maxFloor > 0 and
maxFloor < minSize — the combination the claim says can never arise. -/
theorem C3_counterexample :
    Reachable id id 0 c3Cfg ∧ c3Cfg.minSize > 0 ∧ c3Cfg.maxFloor > 0 ∧
    c3Cfg.maxFloor < c3Cfg.minSize :=
  ⟨Reachable.step c3Mid c3Cfg c3P2
      (Reachable.start 3600 c3P1 c3Mid (by decide)) (by decide),
    by decide, by decide, by decide⟩

/-- C3 (amended): the maxFloor reset is per-call, not a reachable-state
invariant — after any Modify call that supplies MaxFloor (successful or
not), the post-state never has minSize > 0 and 0 < maxFloor < minSize; a
call that raises MinSize without supplying MaxFloor can leave maxFloor
positive and below minSize. -/
theorem C3_amended (expFn roundPrice : ℚ → ℚ) (lotSize : ℚ) (cfg : Config)
    (p : ModifyParams) (v : ℚ) (hv : p.maxFloor = some v) :
    ¬ ((Modify expFn roundPrice lotSize cfg p).1.minSize > 0 ∧
       (Modify expFn roundPrice lotSize cfg p).1.maxFloor > 0 ∧
       (Modify expFn roundPrice lotSize cfg p).1.maxFloor <
         (Modify expFn roundPrice lotSize cfg p).1.minSize) := by
  obtain ⟨hm, hf⟩ := Modify_fields expFn roundPrice lotSize cfg p
  rw [hm, hf, hv]
  simp only [maxFloorUpdate]
  by_cases hc : minSizeUpdate lotSize cfg.minSize p.minSize > 0 ∧
      (if v > 0 ∧ lotSize > 0 then ((⌊v / lotSize⌋ : ℤ) : ℚ) * lotSize else v) <
        minSizeUpdate lotSize cfg.minSize p.minSize
  · simp [hc]
  · rw [if_neg hc]
    rintro ⟨h1, h2, h3⟩
    exact hc ⟨h1, h3⟩

/-- C3, witness for the amended theorem: a Modify call supplying
MaxFloor 5 against a prior minSize of 50 resets maxFloor to 0. -/
theorem C3_amended_witness :
    ({ emptyParams with maxFloor := some 5 } : ModifyParams).maxFloor = some 5 ∧
    ¬ ((Modify id id 0 c3Cfg { emptyParams with maxFloor := some 5 }).1.minSize > 0 ∧
       (Modify id id 0 c3Cfg { emptyParams with maxFloor := some 5 }).1.maxFloor > 0 ∧
       (Modify id id 0 c3Cfg { emptyParams with maxFloor := some 5 }).1.maxFloor <
         (Modify id id 0 c3Cfg { emptyParams with maxFloor := some 5 }).1.minSize) :=
  ⟨rfl, C3_amended id id 0 c3Cfg { emptyParams with maxFloor := some 5 } 5 rfl⟩

/-! ## C4 -/

/-- C4, counterexample: a sell that opens no new position
(position-effect close) on a CN stock is NOT subject to the rule in the
code, while the claim's activation condition says it is. -/
theorem C4_counterexample :
    notLowerThanLastPx PositionEffect.closePosition Side.sell Country.cn
        SecType.stock ≠
      notLowerThanLastPxSpec PositionEffect.closePosition Side.sell Country.cn
        SecType.stock := by
  decide

/-- C4 (amended): the no-markdown rule is active exactly for sell orders
that OPEN a position (position-effect `kOpenPosition`) on CN venues for
stock instruments; when active, the chosen price is raised to the rounded
last price exactly when it is below it (i.e. the adjusted price is the max
of the chosen price and the last price), and the rule changes nothing when
inactive. -/
theorem C4_amended :
    (∀ pe side country secType,
      notLowerThanLastPx pe side country secType = true ↔
        pe = PositionEffect.openPosition ∧ side = Side.sell ∧
        country = Country.cn ∧ secType = SecType.stock) ∧
    (∀ (lastPx : ℚ) (c : Contract),
      applyNotLower true lastPx c = { c with price := max c.price lastPx } ∧
      applyNotLower false lastPx c = c) := by
  constructor
  · intro pe side country secType
    cases pe <;> cases side <;> cases country <;> cases secType <;> decide
  · refine fun lastPx c => ⟨?_, by simp [applyNotLower]⟩
    unfold applyNotLower
    rcases lt_or_le c.price lastPx with hlt | hle
    · simp [hlt, max_eq_right hlt.le]
    · simp [not_lt.2 hle, max_eq_left hle]

/-! ## C5 -/

/-- C5: `GetLeaves` computes exactly the spec's schedule function
`Leaves(now) = ExpectedQty(now) - totalExposure` with
`r = (now - start + 1)/(end - start + 1)`, raised to the `tilt` power when
tilt ≠ 1 (via the abstract `rpow`) and shifted by `randomize * draw` when
randomize ≠ 0, where `draw` is the value of the per-invocation uniform
draw on (-0.01, 0.01); and the tilt exponent stored by `Modify` from a raw
Tilt input x is `exp(-x)/5` (via the abstract `expFn`). -/
theorem C5_schedule :
    (∀ (rpow : ℚ → ℚ → ℚ) (draw now startTime endTime tilt randomize qty
        totalExposure : ℚ),
      GetLeaves rpow draw now startTime endTime tilt randomize qty
          totalExposure =
        LeavesSpec rpow draw now startTime endTime tilt randomize qty
          totalExposure) ∧
    (∀ (expFn roundPrice : ℚ → ℚ) (lotSize : ℚ) (cfg : Config) (x : ℚ),
      (Modify expFn roundPrice lotSize cfg
          { emptyParams with tilt := some x }).1.tilt = expFn (-x) / 5) :=
  ⟨fun _ _ _ _ _ _ _ _ _ => rfl, fun _ _ _ _ _ => rfl⟩

/-! ## C6 -/

/-- Helper: the code's quantity computation agrees with the spec's §4.3
step order. -/
theorem throttleQty_eq_spec (odd : Bool) (lot ms mf lv tl : ℚ) :
    throttleQty odd lot ms mf lv tl = throttleQtySpec odd lot ms mf lv tl :=
  rfl

/-- C6: on a tick that reaches the quantity computation (window open,
tradable period, a computed price, no outstanding order, participation
gate passed, leaves > 0), nothing is placed when `maxQty ≤ 0` and
otherwise the placed child order carries exactly the quantity of the
spec's step order: `ceil(leaves/L)*L`, raised to minSize, capped to a
nonzero maxFloor, capped to maxQty. -/
theorem C6_quantity (roundPrice : ℚ → ℚ) (rpow : ℚ → ℚ → ℚ) (draw : ℚ)
    (t : TickIn) (c : Contract)
    (hend : ¬ t.now > t.endTime) (htp : t.inTradePeriod = true)
    (hc : computeContract roundPrice t.cfg.agg t.cfg.price t.side t.notLower
        t.bid t.ask t.close = some c)
    (ha : t.activeOrders = [])
    (hpov : ¬ (t.volume - t.initialVolume > 0 ∧ t.cfg.maxPov > 0 ∧
        t.cumQty - t.cumCxQty > t.cfg.maxPov * (t.volume - t.initialVolume)))
    (hl : GetLeaves rpow draw t.now t.startTime t.endTime t.cfg.tilt
        t.cfg.randomize t.qty t.totalExposure > 0) :
    timerTick roundPrice rpow draw t =
      match throttleQtySpec t.oddLotAllowed t.lotSize t.cfg.minSize
          t.cfg.maxFloor
          (GetLeaves rpow draw t.now t.startTime t.endTime t.cfg.tilt
            t.cfg.randomize t.qty t.totalExposure)
          (t.qty - t.totalExposure) with
      | none => []
      | some q => [Action.place { c with qty := q }] := by
  unfold timerTick
  rw [if_neg hend, htp, hc, ha]
  simp only [ne_eq, not_true_eq_false, Bool.not_true, Bool.false_eq_true,
    if_false, ite_false]
  rw [if_neg hpov, if_neg (not_le.mpr hl), throttleQty_eq_spec]

/-- C6, witness: on `c6In` the quantity pipeline yields a market child
order of size 10 (ceil(10/10)·10, within maxQty 100). -/
theorem C6_quantity_witness :
    GetLeaves (fun a _ => a) 0 c6In.now c6In.startTime c6In.endTime
        c6In.cfg.tilt c6In.cfg.randomize c6In.qty c6In.totalExposure > 0 ∧
    computeContract id c6In.cfg.agg c6In.cfg.price c6In.side c6In.notLower
        c6In.bid c6In.ask c6In.close = some highestChoice ∧
    timerTick id (fun a _ => a) 0 c6In =
      [Action.place { price := 0, qty := 10, type := OrderType.market }] := by
  refine ⟨by norm_num [GetLeaves, c6In, initConfig], by decide, ?_⟩
  exact (C6_quantity id (fun a _ => a) 0 c6In highestChoice (by decide)
      (by decide) (by decide) (by decide)
      (by norm_num [c6In, initConfig])
      (by norm_num [GetLeaves, c6In, initConfig])).trans
    (by norm_num [throttleQtySpec, GetLeaves, c6In, initConfig,
      highestChoice, Contract.init, Int.ceil_one, Int.floor_ofNat])

/-! ## C7 -/

/-- C7: with no outstanding order, a configured participation cap
(maxPov > 0), positive traded volume since the subscription baseline, and
`filled - canceled > maxPov * volume`, the tick places nothing — whatever
the schedule (`rpow`, `draw`) would have said, since the gate is evaluated
before `GetLeaves`. -/
theorem C7_participationGate (roundPrice : ℚ → ℚ) (rpow : ℚ → ℚ → ℚ)
    (draw : ℚ) (t : TickIn)
    (hend : ¬ t.now > t.endTime) (htp : t.inTradePeriod = true)
    (ha : t.activeOrders = [])
    (hvol : t.volume - t.initialVolume > 0) (hpov : t.cfg.maxPov > 0)
    (hgate : t.cumQty - t.cumCxQty >
      t.cfg.maxPov * (t.volume - t.initialVolume)) :
    timerTick roundPrice rpow draw t = [] := by
  unfold timerTick
  rw [if_neg hend, htp]
  simp only [Bool.not_true, Bool.false_eq_true, if_false, ite_false]
  cases hcc : computeContract roundPrice t.cfg.agg t.cfg.price t.side
      t.notLower t.bid t.ask t.close with
  | none => rfl
  | some c =>
      rw [ha]
      simp only [ne_eq, not_true_eq_false, if_false, ite_false]
      rw [if_pos ⟨hvol, hpov, hgate⟩]

/-- C7, witness: on `c7In` (the spec's own numbers: cap 0.1, volume 500,
60 net filled) the tick places nothing. -/
theorem C7_participationGate_witness :
    c7In.cfg.maxPov > 0 ∧
    c7In.volume - c7In.initialVolume > 0 ∧
    c7In.cumQty - c7In.cumCxQty >
      c7In.cfg.maxPov * (c7In.volume - c7In.initialVolume) ∧
    timerTick id (fun a _ => a) 0 c7In = [] := by
  refine ⟨by norm_num [c7In, initConfig], by norm_num [c7In],
    by norm_num [c7In, initConfig],
    C7_participationGate id (fun a _ => a) 0 c7In (by decide) (by decide)
      (by decide) (by norm_num [c7In]) (by norm_num [c7In, initConfig])
      (by norm_num [c7In, initConfig])⟩

/-! ## C8 -/

/-- C8: on any tick on which the outstanding-order set is non-empty, the
Timer issues no Place intent — only cancels are possible, so a second
child order is never placed while one is outstanding. -/
theorem C8_noSecondOrder (roundPrice : ℚ → ℚ) (rpow : ℚ → ℚ → ℚ)
    (draw : ℚ) (t : TickIn) (ha : t.activeOrders ≠ []) (c : Contract) :
    Action.place c ∉ timerTick roundPrice rpow draw t := by
  unfold timerTick
  split
  · simp
  · split
    · simp
    · split
      · simp
      · intro hmem
        rcases List.mem_filterMap.1 hmem with ⟨p, _, hf⟩
        split at hf
        · exact Option.noConfusion hf
        · split at hf <;> split at hf <;>
            first
              | exact Option.noConfusion hf
              | exact Action.noConfusion (Option.some.inj hf)

/-- C8, witness: with an order resting at 9 (`c9In`), the tick never
carries a Place intent (here checked against the default contract). -/
theorem C8_noSecondOrder_witness :
    c9In.activeOrders ≠ [] ∧
    Action.place Contract.init ∉ timerTick id (fun a _ => a) 0 c9In :=
  ⟨by decide, C8_noSecondOrder id (fun a _ => a) 0 c9In (by decide)
    Contract.init⟩

/-! ## C9 -/

/-- C9: on a tick inside the window and trade period with an order resting
at price `p`, that order is canceled exactly when the newly computed price
exists, is valid (> 0), differs from `p`, and the order is worse than the
touch — for a buy, `p` below the current bid; for a sell, the ask known
(> 0) and `p` above it.  Otherwise (including when the selector abstains)
the order is left resting. -/
theorem C9_cancelRule (roundPrice : ℚ → ℚ) (rpow : ℚ → ℚ → ℚ) (draw : ℚ)
    (t : TickIn) (p : ℚ)
    (hend : ¬ t.now > t.endTime) (htp : t.inTradePeriod = true)
    (hp : p ∈ t.activeOrders) :
    Action.cancel p ∈ timerTick roundPrice rpow draw t ↔
      ∃ c, computeContract roundPrice t.cfg.agg t.cfg.price t.side t.notLower
          t.bid t.ask t.close = some c ∧ c.price > 0 ∧ c.price ≠ p ∧
        (if isBuy t.side then p < t.bid else t.ask > 0 ∧ p > t.ask) := by
  unfold timerTick
  rw [if_neg hend, if_neg (not_not_intro htp)]
  cases hcc : computeContract roundPrice t.cfg.agg t.cfg.price t.side
      t.notLower t.bid t.ask t.close with
  | none => simp
  | some c =>
      have hne : t.activeOrders ≠ [] := List.ne_nil_of_mem hp
      simp only [ne_eq, hne, not_false_eq_true, if_true, ite_true]
      rw [List.mem_filterMap]
      constructor
      · rintro ⟨q, hq, hfq⟩
        by_cases h1 : c.price ≤ 0 ∨ c.price = q
        · rw [if_pos h1] at hfq
          exact Option.noConfusion hfq
        · rw [if_neg h1] at hfq
          obtain ⟨hn1, hn2⟩ := not_or.1 h1
          cases hb : isBuy t.side with
          | true =>
              rw [hb, if_pos rfl] at hfq
              by_cases h2 : q < t.bid
              · rw [if_pos h2] at hfq
                obtain rfl := Action.cancel.inj (Option.some.inj hfq)
                exact ⟨c, rfl, not_le.1 hn1, fun he => hn2 he,
                  by simp [hb, h2]⟩
              · rw [if_neg h2] at hfq
                exact Option.noConfusion hfq
          | false =>
              rw [hb] at hfq
              simp only [Bool.false_eq_true, if_false, ite_false] at hfq
              by_cases h2 : t.ask > 0 ∧ q > t.ask
              · rw [if_pos h2] at hfq
                obtain rfl := Action.cancel.inj (Option.some.inj hfq)
                exact ⟨c, rfl, not_le.1 hn1, fun he => hn2 he,
                  by simp [hb, h2.1, h2.2]⟩
              · rw [if_neg h2] at hfq
                exact Option.noConfusion hfq
      · rintro ⟨c', hc', h0, hne', htch⟩
        obtain rfl : c = c' := Option.some.inj hc'
        refine ⟨p, hp, ?_⟩
        rw [if_neg (not_or.2 ⟨not_le.2 h0, hne'⟩)]
        cases hb : isBuy t.side with
        | true =>
            rw [hb] at htch
            rw [if_pos rfl, if_pos (by simpa using htch)]
        | false =>
            rw [hb] at htch
            rw [if_neg (by simp), if_pos (by simpa using htch)]

/-- C9, witness: on `c9In` (buy resting at 9, bid 10, Low-aggression
computed price 10) the order is canceled. -/
theorem C9_cancelRule_witness :
    (9 : ℚ) ∈ c9In.activeOrders ∧
    Action.cancel 9 ∈ timerTick id (fun a _ => a) 0 c9In := by
  refine ⟨by decide, ?_⟩
  exact (C9_cancelRule id (fun a _ => a) 0 c9In 9 (by decide) (by decide)
      (by decide)).mpr
    ⟨{ Contract.init with price := 10 }, by decide, by decide, by decide,
      by decide⟩

/-! ## C10 -/

/-- Helper: every market-typed contract produced by the aggression switch
is exactly `highestChoice` (price 0, qty 0). -/
theorem aggChoice_market (agg : Agg) (side : Side) (bid ask lastPx midPx : ℚ)
    (c : Contract) (h : aggChoice agg side bid ask lastPx midPx = some c)
    (hm : c.type = OrderType.market) : c = highestChoice := by
  cases agg <;> cases side <;>
    simp only [aggChoice, highChoice, isBuy] at h <;>
    (try split_ifs at h) <;>
    (obtain rfl := Option.some.inj h) <;>
    first
      | rfl
      | exact absurd hm (by simp [Contract.init, highestChoice])

/-- C10: when the aggression chain resolves to a market order, the
limit-price clamp is skipped (whatever limit is configured), but the
no-markdown rule is not: if the rule is active and the rounded last price
is positive, the resulting contract is a market order whose price field is
set to the last price. -/
theorem C10_marketNoMarkdown (roundPrice : ℚ → ℚ) (agg : Agg)
    (limitPrice : ℚ) (side : Side) (bid ask close : ℚ) (c : Contract)
    (hc : aggChoice agg side bid ask (roundPrice close)
        (if ask > bid ∧ bid > 0 then roundPrice ((ask + bid) / 2) else 0) =
      some c)
    (hm : c.type = OrderType.market) (hpos : roundPrice close > 0) :
    computeContract roundPrice agg limitPrice side true bid ask close =
      some { price := roundPrice close, qty := 0,
             type := OrderType.market } := by
  have hc' := aggChoice_market agg side bid ask (roundPrice close) _ c hc hm
  subst hc'
  simp only [computeContract]
  rw [hc]
  simp [applyLimitClamp, applyNotLower, highestChoice, Contract.init, hpos]

/-- C10, witness: Medium aggression with bid = ask = 0 and last price 7,
rule active, configured limit 3 — the result is a market order priced at
the last price 7 (the limit clamp is skipped). -/
theorem C10_marketNoMarkdown_witness :
    aggChoice Agg.medium Side.buy 0 0 (id (7 : ℚ))
        (if (0 : ℚ) > 0 ∧ (0 : ℚ) > 0 then id (((0 : ℚ) + 0) / 2) else 0) =
      some highestChoice ∧
    id (7 : ℚ) > 0 ∧
    computeContract id Agg.medium 3 Side.buy true 0 0 7 =
      some { price := 7, qty := 0, type := OrderType.market } := by
  refine ⟨by decide, by decide, ?_⟩
  exact C10_marketNoMarkdown id Agg.medium 3 Side.buy 0 0 7 highestChoice
    (by decide) (by decide) (by decide)

end TWAPModel
